import Mathlib

/-!
# Verification of the osc2midi bridge

A shallow embedding, in Lean 4, of the pure protocol logic of the
`osc2midi` bridge (`osc2midi.cpp`, `midi_serialization.h`), together with
theorems settling the specification's claims about it.

Bytes and C `char` values are modelled as `Nat` (with explicit `% 2^32`
where 32-bit overflow matters); C strings become `List Nat` of byte
values, with the end of the list playing the role of the NUL terminator
region; fallible steps return a `Bool` success flag exactly as the C code
does.
-/

/-! ## Hex codec (osc2midi.cpp, `encodeHex32` / `decodeHex32`) -/

/-- The `HEX` table of `encodeHex32` (osc2midi.cpp:195-197), as byte values:
digits `'0'..'9'` are 48..57, `'a'..'f'` are 97..102. -/
def HEX : List Nat :=
  [48, 49, 50, 51, 52, 53, 54, 55, 56, 57, 97, 98, 99, 100, 101, 102]

/-- The loop body of `encodeHex32` (osc2midi.cpp:193-206): each iteration
emits `HEX[(d & 0xf0000000) >> 28]` and then shifts the 32-bit value `d`
left by 4 (dropping overflow, as `uint32_t` does).  The C loop runs 7
times plus one final unrolled emission, i.e. 8 iterations in all. -/
def encodeHex32Go : Nat → Nat → List Nat
  | 0, _ => []
  | n + 1, d =>
      HEX.getD ((d &&& 0xf0000000) >>> 28) 48 ::
        encodeHex32Go n ((d <<< 4) % 4294967296)

/-- `encodeHex32` (osc2midi.cpp:193-206) restricted to the 8 hex characters
it stores; the trailing `'\0'` it also writes is accounted for separately
by `sendMidiEventDatagram`. -/
def encodeHex32 (d : Nat) : List Nat :=
  encodeHex32Go 8 d

/-- The loop of `decodeHex32` (osc2midi.cpp:208-235):
`for (int i = 0; i < 8 && src[i]; ++i)` reads characters one at a time,
stopping when `i` reaches 8 (the fuel here) or at a NUL character (either
an explicit 0 byte or the end of the modelled list).  Each hex digit is
folded into the 32-bit accumulator by `result = (result << 4) | value`;
a character outside all three hex ranges yields `(false, 0)`. -/
def decodeHex32Go : Nat → Nat → List Nat → Bool × Nat
  | 0, acc, _ => (true, acc)
  | _ + 1, acc, [] => (true, acc)
  | fuel + 1, acc, c :: rest =>
      if c = 0 then (true, acc)
      else if 48 ≤ c ∧ c ≤ 57 then
        decodeHex32Go fuel (((acc <<< 4) % 4294967296) ||| (c - 48)) rest
      else if 97 ≤ c ∧ c ≤ 102 then
        decodeHex32Go fuel (((acc <<< 4) % 4294967296) ||| (c - 97 + 10)) rest
      else if 65 ≤ c ∧ c ≤ 70 then
        decodeHex32Go fuel (((acc <<< 4) % 4294967296) ||| (c - 65 + 10)) rest
      else (false, 0)

/-- `decodeHex32` (osc2midi.cpp:208-235): returns the C function's `bool`
result paired with the by-reference `result` output. -/
def decodeHex32 (src : List Nat) : Bool × Nat :=
  decodeHex32Go 8 0 src

example : decodeHex32 (encodeHex32 0x09904030) = (true, 0x09904030) := by decide
example : encodeHex32 0x09904030 = [48, 57, 57, 48, 52, 48, 51, 48] := by decide
example : decodeHex32 [49, 0, 120, 120] = (true, 1) := by decide
example : decodeHex32 [48, 103] = (false, 0) := by decide

/-! ### Round-trip of the hex codec -/

/-- Extracting the top nibble of a 32-bit value: masking with `0xf0000000`
and shifting right by 28 is division by `2^28` (mod 16). -/
lemma and_f0_shift (d : Nat) : (d &&& 0xf0000000) >>> 28 = (d >>> 28) % 16 := by
  apply Nat.eq_of_testBit_eq
  intro j
  have h1 : Nat.testBit 0xf0000000 (28 + j) = decide (j < 4) := by
    rw [show (0xf0000000 : Nat) = 2 ^ 28 * (2 ^ 4 - 1) from by norm_num,
      Nat.testBit_mul_pow_two]
    by_cases hj : j < 4
    · interval_cases j <;> decide
    · have h16 : (15 : Nat) < 2 ^ j :=
        calc (15 : Nat) < 2 ^ 4 := by norm_num
          _ ≤ 2 ^ j := Nat.pow_le_pow_right (by norm_num) (by omega)
      simp [hj, Nat.testBit_lt_two_pow h16]
  have h2 : ((d >>> 28) % 16).testBit j = (decide (j < 4) && d.testBit (28 + j)) := by
    rw [show (16 : Nat) = 2 ^ 4 from by norm_num, Nat.testBit_mod_two_pow]
    simp [Nat.testBit_shiftRight]
  rw [Nat.testBit_shiftRight, Nat.testBit_and, h1, h2, Bool.and_comm]

/-- One decode step undoes one encode step: reading `HEX[top]` extends the
accumulator by the nibble `top`.  The bitwise OR of the C code is an
addition because the low 4 bits of `acc <<< 4` are clear. -/
lemma decode_step (fuel acc top : Nat) (rest : List Nat) (htop : top < 16)
    (hacc : 16 * acc + top < 4294967296) :
    decodeHex32Go (fuel + 1) acc (HEX.getD top 48 :: rest) =
      decodeHex32Go fuel (16 * acc + top) rest := by
  have hupd : ∀ v : Nat, v < 16 → ((acc <<< 4) % 4294967296) ||| v = 16 * acc + v := by
    intro v hv
    have h4 : (2 : Nat) ^ 4 = 16 := by norm_num
    have hlt : 2 ^ 4 * acc < 4294967296 := by rw [h4]; omega
    have hv4 : v < 2 ^ 4 := by rw [h4]; omega
    rw [Nat.shiftLeft_eq, mul_comm acc (2 ^ 4), Nat.mod_eq_of_lt hlt,
      ← Nat.mul_add_lt_is_or hv4 acc, h4]
  interval_cases top <;>
    (simp [decodeHex32Go, HEX]
     congr 1
     first
     | rw [hupd _ (by norm_num)]
     | simpa using hupd 0 (by norm_num))

/-- Main round-trip invariant: decoding the `n` characters produced by the
encode loop (followed by anything) appends the top `4*n` bits of `d` to the
accumulator.  `e` is the number of bits of `d` not consumed, so `4*n + e = 32`. -/
lemma decode_encode_go (n : Nat) :
    ∀ e d acc rest, 4 * n + e = 32 → d < 4294967296 → acc < 2 ^ e →
      decodeHex32Go n acc (encodeHex32Go n d ++ rest) =
        (true, acc * 16 ^ n + d / 2 ^ e) := by
  induction n with
  | zero =>
    intro e d acc rest he hd hacc
    have he32 : e = 32 := by omega
    subst he32
    have hdiv : d / 4294967296 = 0 := Nat.div_eq_of_lt hd
    simp [encodeHex32Go, decodeHex32Go, hdiv]
  | succ n ih =>
    intro e d acc rest he hd hacc
    have hp28 : (2 : Nat) ^ 28 = 268435456 := by norm_num
    have he28 : e ≤ 28 := by omega
    have hacc28 : acc < 2 ^ 28 := lt_of_lt_of_le hacc (Nat.pow_le_pow_right (by norm_num) he28)
    have htoplt : d / 2 ^ 28 < 16 := by
      rw [Nat.div_lt_iff_lt_mul (by positivity)]
      omega
    have htop : (d &&& 0xf0000000) >>> 28 = d / 2 ^ 28 := by
      rw [and_f0_shift, Nat.shiftRight_eq_div_pow, Nat.mod_eq_of_lt htoplt]
    have hd' : (d <<< 4) % 4294967296 = 16 * (d % 2 ^ 28) := by
      rw [Nat.shiftLeft_eq, hp28]
      norm_num
      omega
    simp only [encodeHex32Go, List.cons_append, htop, hd']
    rw [decode_step n acc (d / 2 ^ 28) _ htoplt (by omega)]
    rw [ih (e + 4) (16 * (d % 2 ^ 28)) (16 * acc + d / 2 ^ 28) rest (by omega)
      (by omega) (by rw [pow_add]; norm_num; omega)]
    congr 1
    have hsplit : 2 ^ 28 = 2 ^ e * 2 ^ (4 * n) := by
      rw [← pow_add]
      congr 1
      omega
    have h16n : (16 : Nat) ^ n = 2 ^ (4 * n) := by
      rw [show (16 : Nat) = 2 ^ 4 by norm_num, ← pow_mul]
    have hquot : 16 * (d % 2 ^ 28) / 2 ^ (e + 4) = d % 2 ^ 28 / 2 ^ e := by
      rw [pow_add, show (2 : Nat) ^ 4 = 16 by norm_num, mul_comm (2 ^ e) 16,
        Nat.mul_div_mul_left _ _ (by norm_num)]
    rw [hquot]
    have hd_split : d = 2 ^ 28 * (d / 2 ^ 28) + d % 2 ^ 28 := (Nat.div_add_mod d (2 ^ 28)).symm
    have hfinal : d / 2 ^ e = 2 ^ (4 * n) * (d / 2 ^ 28) + d % 2 ^ 28 / 2 ^ e := by
      conv_lhs => rw [hd_split]
      rw [hsplit, mul_assoc, Nat.add_comm, Nat.add_mul_div_left _ _ (by positivity)]
      ring
    have h16n1 : (16 : Nat) ^ (n + 1) = 2 ^ (4 * n) * 16 := by rw [pow_succ, h16n]
    rw [hfinal, h16n, h16n1]
    ring

/-- **C1**: for every 32-bit value `v`, decoding the 8-character string
produced by `encodeHex32 v` with `decodeHex32` succeeds and yields exactly
`v`. -/
theorem hex_roundtrip (d : Nat) (hd : d < 4294967296) :
    decodeHex32 (encodeHex32 d) = (true, d) := by
  have h := decode_encode_go 8 0 d 0 [] (by norm_num) hd (by norm_num)
  simpa [decodeHex32, encodeHex32] using h

/-- Witness for **C1** at the concrete value `0x09904030`. -/
theorem hex_roundtrip_witness :
    decodeHex32 (encodeHex32 160448560) = (true, 160448560) :=
  hex_roundtrip 160448560 (by norm_num)

/-! ### Failure behaviour of `decodeHex32` -/

/-- A byte in one of the three character ranges `decodeHex32` accepts:
`'0'..'9'` (48..57), `'a'..'f'` (97..102), `'A'..'F'` (65..70). -/
def isHexDigit (c : Nat) : Prop :=
  (48 ≤ c ∧ c ≤ 57) ∨ (97 ≤ c ∧ c ≤ 102) ∨ (65 ≤ c ∧ c ≤ 70)

instance (c : Nat) : Decidable (isHexDigit c) := by
  unfold isHexDigit
  infer_instance

/-- If the first `k` characters are hex digits and character `k` (within the
first 8, before any NUL) is neither a hex digit nor NUL, the decode loop
reaches it and aborts with `(false, 0)`. -/
lemma decodeHex32Go_fail :
    ∀ (k fuel acc : Nat) (src : List Nat), k < fuel →
      (∀ j, j < k → isHexDigit (src.getD j 0)) →
      ¬ isHexDigit (src.getD k 0) → src.getD k 0 ≠ 0 →
      decodeHex32Go fuel acc src = (false, 0) := by
  intro k
  induction k with
  | zero =>
    intro fuel acc src hk hpre hnon hnz
    match src with
    | [] => simp at hnz
    | c :: rest =>
      match fuel, hk with
      | f + 1, _ =>
        simp only [List.getD_cons_zero] at hnon hnz
        have hA : ¬(48 ≤ c ∧ c ≤ 57) := fun h => hnon (Or.inl h)
        have hB : ¬(97 ≤ c ∧ c ≤ 102) := fun h => hnon (Or.inr (Or.inl h))
        have hC : ¬(65 ≤ c ∧ c ≤ 70) := fun h => hnon (Or.inr (Or.inr h))
        simp only [decodeHex32Go]
        rw [if_neg hnz, if_neg hA, if_neg hB, if_neg hC]
  | succ k ih =>
    intro fuel acc src hk hpre hnon hnz
    have hhex : isHexDigit (src.getD 0 0) := hpre 0 (Nat.succ_pos k)
    match src with
    | [] => exact absurd (by simpa using hhex) (by decide)
    | c :: rest =>
      match fuel, hk with
      | f + 1, hk =>
        simp only [List.getD_cons_zero] at hhex
        have hc0 : ¬(c = 0) := by rcases hhex with h | h | h <;> omega
        simp only [decodeHex32Go]
        rw [if_neg hc0]
        rcases hhex with h | h | h
        · rw [if_pos h]
          exact ih f _ rest (by omega)
            (fun j hj => by simpa using hpre (j + 1) (by omega))
            (by simpa using hnon) (by simpa using hnz)
        · rw [if_neg (by omega), if_pos h]
          exact ih f _ rest (by omega)
            (fun j hj => by simpa using hpre (j + 1) (by omega))
            (by simpa using hnon) (by simpa using hnz)
        · rw [if_neg (by omega), if_neg (by omega), if_pos h]
          exact ih f _ rest (by omega)
            (fun j hj => by simpa using hpre (j + 1) (by omega))
            (by simpa using hnon) (by simpa using hnz)

/-- **C2** counterexample: position 1 of this input holds a NUL, which is not
a hex digit, yet `decodeHex32` succeeds with the partially decoded value 1
instead of returning `(false, 0)` as the claim demands. -/
theorem decodeHex32_nul_counterexample :
    ¬ isHexDigit (([49, 0, 120, 120, 120, 120, 120, 120] : List Nat).getD 1 0) ∧
      decodeHex32 [49, 0, 120, 120, 120, 120, 120, 120] ≠ (false, 0) ∧
      decodeHex32 [49, 0, 120, 120, 120, 120, 120, 120] = (true, 1) := by
  decide

/-- **C2** (amended): if some position `k < 8` holds a character that is
neither a hex digit nor NUL, and every earlier position holds a hex digit,
then `decodeHex32` fails with result zero.  (A NUL before position 8 instead
stops the loop early with success and the partially decoded value.) -/
theorem decodeHex32_nonhex_fails (src : List Nat) (k : Nat) (hk : k < 8)
    (hpre : ∀ j, j < k → isHexDigit (src.getD j 0))
    (hnon : ¬ isHexDigit (src.getD k 0)) (hnz : src.getD k 0 ≠ 0) :
    decodeHex32 src = (false, 0) :=
  decodeHex32Go_fail k 8 0 src hk hpre hnon hnz

/-- Witness for **C2**: `"0g"` fails at position 1 with a zero result. -/
theorem decodeHex32_nonhex_fails_witness :
    decodeHex32 [48, 103] = (false, 0) :=
  decodeHex32_nonhex_fails [48, 103] 1 (by norm_num) (by decide) (by decide)
    (by decide)

/-! ### Case-insensitivity of `decodeHex32` -/

/-- `c2` is `c` with an optional lowercase-hex-to-uppercase replacement:
either the same character, or the uppercase counterpart of a lowercase
hex digit `'a'..'f'`. -/
def upperOf (c c2 : Nat) : Prop :=
  c2 = c ∨ (c = 97 ∧ c2 = 65) ∨ (c = 98 ∧ c2 = 66) ∨ (c = 99 ∧ c2 = 67) ∨
    (c = 100 ∧ c2 = 68) ∨ (c = 101 ∧ c2 = 69) ∨ (c = 102 ∧ c2 = 70)

instance (c c2 : Nat) : Decidable (upperOf c c2) := by
  unfold upperOf
  infer_instance

/-- Replacing lowercase hex digits by their uppercase counterparts anywhere
in the input does not change what the decode loop returns. -/
lemma decodeHex32Go_upper {src src2 : List Nat}
    (h : List.Forall₂ upperOf src src2) :
    ∀ fuel acc, decodeHex32Go fuel acc src2 = decodeHex32Go fuel acc src := by
  induction h with
  | nil => intro fuel acc; cases fuel <;> rfl
  | @cons c c2 tl tl2 hrel htl ih =>
    intro fuel acc
    cases fuel with
    | zero => rfl
    | succ f =>
      rcases hrel with rfl | h6
      · simp only [decodeHex32Go]
        split
        · rfl
        · split
          · exact ih f _
          · split
            · exact ih f _
            · split
              · exact ih f _
              · rfl
      · rcases h6 with ⟨rfl, rfl⟩ | ⟨rfl, rfl⟩ | ⟨rfl, rfl⟩ | ⟨rfl, rfl⟩ |
          ⟨rfl, rfl⟩ | ⟨rfl, rfl⟩ <;>
          (simp [decodeHex32Go]; exact ih f _)

/-- **C9**: for an 8-character hex-digit input, uppercasing any subset of the
lowercase digits `'a'..'f'` changes neither the success flag nor the decoded
value. -/
theorem decodeHex32_case_insensitive (src src2 : List Nat)
    (hlen : src.length = 8) (hhex : ∀ j, j < 8 → isHexDigit (src.getD j 0))
    (hrel : List.Forall₂ upperOf src src2) :
    decodeHex32 src2 = decodeHex32 src :=
  decodeHex32Go_upper hrel 8 0

/-- Witness for **C9**: `"09ABCDEF"` decodes exactly as `"09abcdef"`. -/
theorem decodeHex32_case_insensitive_witness :
    decodeHex32 [48, 57, 65, 66, 67, 68, 69, 70] =
      decodeHex32 [48, 57, 97, 98, 99, 100, 101, 102] :=
  decodeHex32_case_insensitive [48, 57, 97, 98, 99, 100, 101, 102]
    [48, 57, 65, 66, 67, 68, 69, 70] (by decide) (by decide)
    (.cons (by decide) (.cons (by decide) (.cons (by decide) (.cons (by decide)
      (.cons (by decide) (.cons (by decide) (.cons (by decide)
        (.cons (by decide) .nil))))))))

/-! ## Wire protocol (osc2midi.cpp, message constants and datagram handling) -/

/-- `MSG_MIDI_EVENT` (osc2midi.cpp:57-60): the 20 bytes
`"/osc2midi/event\0,s\0\0"`. -/
def MSG_MIDI_EVENT : List Nat :=
  [47, 111, 115, 99, 50, 109, 105, 100, 105, 47, 101, 118, 101, 110, 116, 0,
    44, 115, 0, 0]

/-- `MSG_BYE` (osc2midi.cpp:67-69): the 16 bytes `"/osc2midi/bye\0\0\0"`. -/
def MSG_BYE : List Nat :=
  [47, 111, 115, 99, 50, 109, 105, 100, 105, 47, 98, 121, 101, 0, 0, 0]

/-- `midi_event_t` (midi_serialization.h:25-29): one tag byte `m_event` and
the three payload bytes of the C array `m_data[3]`, as three fields. -/
structure midi_event_t where
  m_event : Nat
  m_data0 : Nat
  m_data1 : Nat
  m_data2 : Nat
deriving DecidableEq

/-- The 32-bit big-endian packing computed inside `sendMidiEvent`
(osc2midi.cpp:242):
`(m_event << 24) | (m_data[0] << 16) | (m_data[1] << 8) | m_data[2]`. -/
def packMidiEvent (ev : midi_event_t) : Nat :=
  (ev.m_event <<< 24) ||| (ev.m_data0 <<< 16) ||| (ev.m_data1 <<< 8) |||
    ev.m_data2

/-- The UDP payload built by `sendMidiEvent` (osc2midi.cpp:237-251): the
20-byte `MSG_MIDI_EVENT` prefix, the 8 hex characters, the NUL terminator
written by `encodeHex32`, then the three NULs written by the `*p++ = '\0'`
statements; 32 bytes in all (the code asserts `p - buffer == sizeof(buffer)`
with `char buffer[32]`). -/
def sendMidiEventDatagram (ev : midi_event_t) : List Nat :=
  MSG_MIDI_EVENT ++ encodeHex32 (packMidiEvent ev) ++ [0] ++ [0, 0, 0]

/-- `handleUdpPacket` (osc2midi.cpp:304-343), with the ALSA output calls
abstracted away: returns the `bool` that tells the main loop to stop,
paired with the parsed event handed to `UsbToMidi::process` when the
datagram is a well-formed event message (`none` when the datagram is
ignored).  `buffer` is the content of the caller's reused 256-byte receive
buffer (osc2midi.cpp:430): its first `len` bytes are the datagram just
received, the rest are stale bytes left over from earlier datagrams.  The
`memcmp(buffer, MSG, sizeof MSG) == 0` tests read their full 16/20 bytes
from that buffer without consulting `len`, exactly as the C code does, so
when `len` is smaller than a prefix the comparison depends on the stale
bytes. -/
def handleUdpPacket (buffer : List Nat) (len : Nat) :
    Bool × Option midi_event_t :=
  if buffer.take 20 = MSG_MIDI_EVENT then
    if len < 20 + 12 then (false, none)
    else
      match decodeHex32 (buffer.drop 20) with
      | (true, t) =>
          (false, some ⟨t >>> 24, (t >>> 16) &&& 0xff, (t >>> 8) &&& 0xff,
            t &&& 0xff⟩)
      | (false, _) => (false, none)
  else if buffer.take 16 = MSG_BYE then (true, none)
  else (false, none)

example :
    handleUdpPacket (sendMidiEventDatagram ⟨9, 144, 64, 48⟩) 32 =
      (false, some ⟨9, 144, 64, 48⟩) := by decide
example : handleUdpPacket MSG_BYE 16 = (true, none) := by decide

/-! ### C3: layout of the event datagram -/

/-- Every character the encode loop emits is in the (lowercase) `HEX`
table. -/
lemma getD_HEX_mem (t : Nat) : HEX.getD t 48 ∈ HEX := by
  rcases Nat.lt_or_ge t 16 with h | h
  · interval_cases t <;> decide
  · rw [List.getD_eq_getElem?_getD, List.getElem?_eq_none (by simp [HEX]; omega)]
    decide

lemma encodeHex32Go_length (n : Nat) : ∀ d, (encodeHex32Go n d).length = n := by
  induction n with
  | zero => intro d; rfl
  | succ n ih => intro d; simp [encodeHex32Go, ih]

lemma encodeHex32Go_mem_HEX (n : Nat) :
    ∀ d c, c ∈ encodeHex32Go n d → c ∈ HEX := by
  induction n with
  | zero => intro d c hc; simp [encodeHex32Go] at hc
  | succ n ih =>
    intro d c hc
    simp only [encodeHex32Go, List.mem_cons] at hc
    rcases hc with rfl | hc
    · exact getD_HEX_mem _
    · exact ih _ c hc

/-- **C3** counterexample: at the Note-On packet `(9, 0x90, 0x40, 0x30)` the
datagram built by `sendMidiEvent` is not the claimed
`prefix ++ hex ++ "\0\0\0"` shape — the hex characters are followed by four
NUL bytes (the string terminator plus three padding NULs), not three. -/
theorem sendMidiEvent_three_nuls_counterexample :
    sendMidiEventDatagram ⟨9, 144, 64, 48⟩ ≠
      MSG_MIDI_EVENT ++ encodeHex32 (packMidiEvent ⟨9, 144, 64, 48⟩) ++
        [0, 0, 0] := by
  decide

/-- **C3** (amended): for every event packet the datagram is the 20-byte
`MSG_MIDI_EVENT` prefix, then 8 characters all drawn from the lowercase hex
table, then exactly four NUL bytes, for a fixed total length of 32. -/
theorem sendMidiEvent_datagram_layout (ev : midi_event_t) :
    (sendMidiEventDatagram ev).length = 32 ∧
      (sendMidiEventDatagram ev).take 20 = MSG_MIDI_EVENT ∧
      ((sendMidiEventDatagram ev).drop 20).take 8 =
        encodeHex32 (packMidiEvent ev) ∧
      (∀ c ∈ ((sendMidiEventDatagram ev).drop 20).take 8, c ∈ HEX) ∧
      (sendMidiEventDatagram ev).drop 28 = [0, 0, 0, 0] := by
  have hlen : (encodeHex32 (packMidiEvent ev)).length = 8 :=
    encodeHex32Go_length 8 _
  have hshape : sendMidiEventDatagram ev =
      MSG_MIDI_EVENT ++ (encodeHex32 (packMidiEvent ev) ++ [0, 0, 0, 0]) := by
    simp [sendMidiEventDatagram]
  refine ⟨?_, ?_, ?_, ?_, ?_⟩
  · rw [hshape]
    simp [MSG_MIDI_EVENT, hlen]
  · rw [hshape, List.take_left' (by simp [MSG_MIDI_EVENT])]
  · rw [hshape, List.drop_left' (by simp [MSG_MIDI_EVENT]),
      List.take_left' hlen]
  · rw [hshape, List.drop_left' (by simp [MSG_MIDI_EVENT]),
      List.take_left' hlen]
    intro c hc
    exact encodeHex32Go_mem_HEX 8 _ c hc
  · rw [hshape, show (28 : Nat) = 20 + 8 from rfl, ← List.drop_drop,
      List.drop_left' (by simp [MSG_MIDI_EVENT]), List.drop_left' hlen]

/-! ### C4: serialize-then-parse round trip -/

/-- Bitwise OR acts as addition when the low `i` bits of the left operand
are clear. -/
lemma or_is_add (i a b : Nat) (hb : b < 2 ^ i) : a * 2 ^ i ||| b = a * 2 ^ i + b := by
  rw [show a * 2 ^ i = 2 ^ i * a from by ring, ← Nat.mul_add_lt_is_or hb a]

/-- The big-endian packing of the four packet bytes, as plain arithmetic. -/
lemma pack_value (e d0 d1 d2 : Nat) (h0 : d0 < 256) (h1 : d1 < 256)
    (h2 : d2 < 256) :
    (e <<< 24) ||| (d0 <<< 16) ||| (d1 <<< 8) ||| d2 =
      16777216 * e + 65536 * d0 + 256 * d1 + d2 := by
  have hb0 : d0 * 2 ^ 16 < 2 ^ 24 := by norm_num; omega
  have hb1 : d1 * 2 ^ 8 < 2 ^ 16 := by norm_num; omega
  have hb2 : d2 < 2 ^ 8 := by norm_num; omega
  rw [Nat.shiftLeft_eq, Nat.shiftLeft_eq, Nat.shiftLeft_eq,
    or_is_add 24 e _ hb0,
    show e * 2 ^ 24 + d0 * 2 ^ 16 = (256 * e + d0) * 2 ^ 16 from by ring,
    or_is_add 16 _ _ hb1,
    show (256 * e + d0) * 2 ^ 16 + d1 * 2 ^ 8 =
      (65536 * e + 256 * d0 + d1) * 2 ^ 8 from by ring,
    or_is_add 8 _ _ hb2]
  ring

/-- `x &&& 0xff` keeps the low byte. -/
lemma and_255_eq_mod (x : Nat) : x &&& 255 = x % 256 := by
  have h := Nat.and_pow_two_sub_one_eq_mod x 8
  norm_num at h
  exact h

/-- **C4**: for every 4-byte event packet, serializing it with
`sendMidiEvent`'s datagram construction and parsing the bytes with
`handleUdpPacket` passes the minimum-length check, does not stop the loop,
and recovers exactly the original packet. -/
theorem event_datagram_roundtrip (ev : midi_event_t) (he : ev.m_event < 256)
    (h0 : ev.m_data0 < 256) (h1 : ev.m_data1 < 256) (h2 : ev.m_data2 < 256) :
    ¬ (sendMidiEventDatagram ev).length < 20 + 12 ∧
      handleUdpPacket (sendMidiEventDatagram ev)
          (sendMidiEventDatagram ev).length = (false, some ev) := by
  obtain ⟨e, d0, d1, d2⟩ := ev
  simp only at he h0 h1 h2
  have hpack : packMidiEvent ⟨e, d0, d1, d2⟩ =
      16777216 * e + 65536 * d0 + 256 * d1 + d2 := pack_value e d0 d1 d2 h0 h1 h2
  have hv32 : 16777216 * e + 65536 * d0 + 256 * d1 + d2 < 4294967296 := by omega
  have hshape : sendMidiEventDatagram ⟨e, d0, d1, d2⟩ =
      MSG_MIDI_EVENT ++
        (encodeHex32 (16777216 * e + 65536 * d0 + 256 * d1 + d2) ++
          [0, 0, 0, 0]) := by
    simp [sendMidiEventDatagram, hpack]
  have hdlen : (sendMidiEventDatagram ⟨e, d0, d1, d2⟩).length = 32 := by
    rw [hshape]
    simp [MSG_MIDI_EVENT, encodeHex32, encodeHex32Go_length]
  have hdec : decodeHex32
      (encodeHex32 (16777216 * e + 65536 * d0 + 256 * d1 + d2) ++
        [0, 0, 0, 0]) =
      (true, 16777216 * e + 65536 * d0 + 256 * d1 + d2) := by
    have h := decode_encode_go 8 0 (16777216 * e + 65536 * d0 + 256 * d1 + d2)
      0 [0, 0, 0, 0] (by norm_num) hv32 (by norm_num)
    simpa [decodeHex32, encodeHex32] using h
  refine ⟨by omega, ?_⟩
  rw [hdlen]
  unfold handleUdpPacket
  rw [hshape, List.take_left' (by simp [MSG_MIDI_EVENT]), if_pos rfl,
    if_neg (by omega), List.drop_left' (by simp [MSG_MIDI_EVENT]), hdec]
  simp only [Prod.mk.injEq, Option.some.injEq, midi_event_t.mk.injEq]
  have hs24 : (16777216 * e + 65536 * d0 + 256 * d1 + d2) >>> 24 =
      (16777216 * e + 65536 * d0 + 256 * d1 + d2) / 16777216 := by
    simp [Nat.shiftRight_eq_div_pow]
  have hs16 : (16777216 * e + 65536 * d0 + 256 * d1 + d2) >>> 16 =
      (16777216 * e + 65536 * d0 + 256 * d1 + d2) / 65536 := by
    simp [Nat.shiftRight_eq_div_pow]
  have hs8 : (16777216 * e + 65536 * d0 + 256 * d1 + d2) >>> 8 =
      (16777216 * e + 65536 * d0 + 256 * d1 + d2) / 256 := by
    simp [Nat.shiftRight_eq_div_pow]
  refine ⟨trivial, ?_, ?_, ?_, ?_⟩
  · rw [hs24]; omega
  · rw [hs16, and_255_eq_mod]; omega
  · rw [hs8, and_255_eq_mod]; omega
  · rw [and_255_eq_mod]; omega

/-- Witness for **C4** at the Note-On packet `(9, 0x90, 0x40, 0x30)`. -/
theorem event_datagram_roundtrip_witness :
    ¬ (sendMidiEventDatagram ⟨9, 144, 64, 48⟩).length < 20 + 12 ∧
      handleUdpPacket (sendMidiEventDatagram ⟨9, 144, 64, 48⟩)
          (sendMidiEventDatagram ⟨9, 144, 64, 48⟩).length =
        (false, some ⟨9, 144, 64, 48⟩) :=
  event_datagram_roundtrip ⟨9, 144, 64, 48⟩ (by norm_num) (by norm_num)
    (by norm_num) (by norm_num)

/-! ### C5: only a Goodbye datagram stops the loop -/

/-- **C5** counterexample: a 13-byte datagram `"/osc2midi/bye"` (without the
three trailing NULs) arriving after a prior full 16-byte Goodbye leaves the
256-byte receive buffer holding `MSG_BYE` followed by stale zeros.  The
received datagram — the buffer's first 13 bytes — is shorter than the
16-byte Goodbye prefix and so does not begin with it, yet `memcmp` reads the
three stale NULs, matches, and `handleUdpPacket` returns `true`, refuting
the claimed "true if and only if the datagram begins with the 16-byte
Goodbye prefix". -/
theorem handleUdpPacket_stale_bye_counterexample :
    (((MSG_BYE ++ List.replicate 240 0).take 13).length = 13 ∧
        ((MSG_BYE ++ List.replicate 240 0).take 13).take 16 ≠ MSG_BYE) ∧
      (handleUdpPacket (MSG_BYE ++ List.replicate 240 0) 13).1 = true := by
  decide

/-- **C5** (amended): for every received datagram at least 16 bytes long —
so that the bytes the Goodbye `memcmp` reads are all received bytes, not
stale ones — `handleUdpPacket` tells the main loop to stop exactly when the
datagram begins with the 16-byte `MSG_BYE` prefix; event datagrams (well
formed or not, including short ones and hex-decode failures) and
unrecognized datagrams never stop the loop.  The datagram is the buffer's
first `len` bytes. -/
theorem handleUdpPacket_true_iff_bye_complete (buffer : List Nat) (len : Nat)
    (h16 : 16 ≤ len) (hlen : len ≤ buffer.length) :
    (handleUdpPacket buffer len).1 = true ↔
      (buffer.take len).take 16 = MSG_BYE := by
  have hd : (buffer.take len).take 16 = buffer.take 16 := by
    rw [List.take_take, min_eq_left h16]
  rw [hd]
  unfold handleUdpPacket
  by_cases hev : buffer.take 20 = MSG_MIDI_EVENT
  · rw [if_pos hev]
    have hne : buffer.take 16 ≠ MSG_BYE := by
      intro hbye
      have h1 : (buffer.take 20).take 16 = buffer.take 16 := by
        rw [List.take_take, show (16 ⊓ 20 : Nat) = 16 from by norm_num]
      rw [hev, hbye] at h1
      exact absurd h1 (by decide)
    constructor
    · intro h
      exfalso
      revert h
      split
      · simp
      · split <;> simp
    · intro h
      exact absurd h hne
  · rw [if_neg hev]
    by_cases hbye : buffer.take 16 = MSG_BYE
    · simp [hbye]
    · simp [hbye]

/-- Witness for **C5** on a full 16-byte Goodbye datagram in the 256-byte
buffer. -/
theorem handleUdpPacket_true_iff_bye_complete_witness :
    (handleUdpPacket (MSG_BYE ++ List.replicate 240 0) 16).1 = true ↔
      ((MSG_BYE ++ List.replicate 240 0).take 16).take 16 = MSG_BYE :=
  handleUdpPacket_true_iff_bye_complete (MSG_BYE ++ List.replicate 240 0) 16
    (by norm_num)
    (by rw [List.length_append, List.length_replicate]; decide)

/-! ## Exit codes (osc2midi.cpp, `run` and `main`) -/

/-- `EINVAL` (errno 22), the code `main` returns on port-argument
failures and `run` negates for invalid-argument conditions. -/
def EINVAL : Int := 22

/-- Outcome of the external setup/loop steps of `run` (osc2midi.cpp:369-448),
abstracting the ALSA sequencer, UDP socket, address-parse and poll calls.
Each failure constructor carries the value `run`'s `result` variable takes
at that point (negative by the contract of the failing call). -/
inductive RunOutcome where
  | seqFail (err : Int)
  | udpFail (err : Int)
  | badAddr
  | badNpfd
  | pollFail (errno : Nat)
  | goodbye
deriving DecidableEq

/-- `run` (osc2midi.cpp:369-448) as a function of the nullness of its
pointer arguments and the abstracted outcome of the external calls:
the value `run` returns.  On the Goodbye path the loop exits with
`done = true` and `result` still 0. -/
def run (nameNull ipNull : Bool) (outcome : RunOutcome) : Int :=
  if nameNull || ipNull then -EINVAL
  else
    match outcome with
    | .seqFail err => err
    | .udpFail err => err
    | .badAddr => -EINVAL
    | .badNpfd => -EINVAL
    | .pollFail e => -(e : Int)
    | .goodbye => 0

/-- `main` (osc2midi.cpp:465-499) as a function of the shape of `argv`:
`argc`, whether `argv[1]` is `-v`/`--version`, the result of the
`strtoul` parse of `argv[3]` (`none` when `endPtr == argv[3]` or
`*endPtr != '\0'`), and the abstracted run outcome.  Returns the `int`
`main` returns; the process exit status is its low 8 bits. -/
def mainResult (argc : Nat) (isVersionFlag : Bool) (portParse : Option Nat)
    (outcome : RunOutcome) : Int :=
  if argc = 2 ∧ isVersionFlag then 0
  else if argc ≠ 4 then 0
  else
    match portParse with
    | none => EINVAL
    | some port =>
        if port = 0 ∨ 65536 ≤ port then EINVAL
        else run false false outcome

example : mainResult 4 false (some 8000) .goodbye = 0 := by decide
example : mainResult 4 false (some 8000) (.seqFail (-22)) = -22 := by decide

/-- **C6** counterexample: when the ALSA sequencer open fails with code
`-22`, `main` returns `-22` — a negative value, not the positive error code
the claim asserts for every fatal startup error. -/
theorem main_negative_on_seqfail_counterexample :
    mainResult 4 false (some 8000) (.seqFail (-22)) = -22 ∧
      ¬ 0 < mainResult 4 false (some 8000) (.seqFail (-22)) := by
  decide

/-- **C6** (amended): `main` returns 0 on version display, on wrong argument
count, and on graceful Goodbye-triggered shutdown; it returns the positive
code `EINVAL` on port-argument parse or range failure; and on every
run-level fatal startup error it returns the failing step's error code,
which is negative — hence nonzero, and a positive value only as the
process's 8-bit exit status. -/
theorem main_exit_codes (port : Nat) (hport : 0 < port ∧ port < 65536)
    (e1 e2 : Int) (h1 : e1 < 0) (h2 : e2 < 0) (er : Nat) (her : 0 < er) :
    mainResult 2 true none .goodbye = 0 ∧
      mainResult 3 false none .goodbye = 0 ∧
      mainResult 4 false (some port) .goodbye = 0 ∧
      (mainResult 4 false none .goodbye = EINVAL ∧ 0 < EINVAL) ∧
      mainResult 4 false (some 0) .goodbye = EINVAL ∧
      (mainResult 4 false (some port) (.seqFail e1) = e1 ∧ e1 ≠ 0) ∧
      (mainResult 4 false (some port) (.udpFail e2) = e2 ∧ e2 ≠ 0) ∧
      (mainResult 4 false (some port) .badAddr = -EINVAL ∧ -EINVAL < 0) ∧
      (mainResult 4 false (some port) (.pollFail er) = -(er : Int) ∧
        -(er : Int) < 0) := by
  have hpc : ¬(port = 0 ∨ 65536 ≤ port) := by omega
  refine ⟨rfl, rfl, ?_, ⟨rfl, by norm_num [EINVAL]⟩, rfl, ?_, ?_, ?_, ?_⟩ <;>
    simp [mainResult, run, hpc, EINVAL] <;> omega

/-- Witness for **C6** at port 8000, error codes -22 and -13, errno 4. -/
theorem main_exit_codes_witness :
    mainResult 2 true none .goodbye = 0 ∧
      mainResult 3 false none .goodbye = 0 ∧
      mainResult 4 false (some 8000) .goodbye = 0 ∧
      (mainResult 4 false none .goodbye = EINVAL ∧ 0 < EINVAL) ∧
      mainResult 4 false (some 0) .goodbye = EINVAL ∧
      (mainResult 4 false (some 8000) (.seqFail (-22)) = -22 ∧
        (-22 : Int) ≠ 0) ∧
      (mainResult 4 false (some 8000) (.udpFail (-13)) = -13 ∧
        (-13 : Int) ≠ 0) ∧
      (mainResult 4 false (some 8000) .badAddr = -EINVAL ∧ -EINVAL < 0) ∧
      (mainResult 4 false (some 8000) (.pollFail 4) = -((4 : Nat) : Int) ∧
        -((4 : Nat) : Int) < 0) :=
  main_exit_codes 8000 (by norm_num) (-22) (-13) (by norm_num) (by norm_num)
    4 (by norm_num)

/-! ## The Hello datagram buffer (osc2midi.cpp, `sendHello`) -/

/-- `MSG_HELLO` (osc2midi.cpp:44-47): the 20 bytes `"/osc2midi/hello\0,is\0"`. -/
def MSG_HELLO : List Nat :=
  [47, 111, 115, 99, 50, 109, 105, 100, 105, 47, 104, 101, 108, 108, 111, 0,
    44, 105, 115, 0]

/-- The length check of `sendHello` (osc2midi.cpp:181-183) exactly as
written: the call proceeds unless
`n > sizeof(buffer) - sizeof(MSG_HELLO) + sizeof(uint32_t)`,
i.e. unless `n > 256 - 20 + 4` (`n` is `strlen(name) + 1`).  Note the
expression adds `sizeof(uint32_t)` instead of subtracting it. -/
def sendHelloAccepted (n : Nat) : Bool :=
  !(n > 256 - 20 + 4)

/-- Offset of the last byte `strncpy(buffer + sizeof(MSG_HELLO) +
sizeof(uint32_t), name, n)` writes (osc2midi.cpp:185): the copy starts at
offset 24 and writes exactly `n` bytes (the name and its NUL). -/
def sendHelloLastNameOffset (n : Nat) : Nat :=
  20 + 4 + n - 1

/-- One past the last offset written by `sendHello` overall: after the name
copy the `while ((intptr_t)p & 0x3) *p++ = '\0';` loop (osc2midi.cpp:187-188)
pads with NULs up to the next 4-byte boundary (taking the buffer base as
4-byte aligned). -/
def sendHelloWriteEnd (n : Nat) : Nat :=
  (24 + n) + (4 - (24 + n) % 4) % 4

/-- **C10** exhibit: a name of length 239 (`n = strlen + 1 = 240`) passes the
length check, yet `strncpy` writes its last byte at offset 263 — past the end
of the 256-byte buffer (offsets 256..263 are out of bounds).  The claim's
safety property is the evident intent; the check's expression
`sizeof(buffer) - sizeof(MSG_HELLO) + sizeof(uint32_t)` (= 240) should have
been `sizeof(buffer) - (sizeof(MSG_HELLO) + sizeof(uint32_t))` (= 232). -/
theorem sendHello_overflow :
    sendHelloAccepted 240 = true ∧
      sendHelloLastNameOffset 240 = 263 ∧
      256 ≤ sendHelloLastNameOffset 240 ∧
      sendHelloWriteEnd 240 = 264 := by
  decide

/-- With the intended bound 232 every write would stay in bounds: the padded
end never passes offset 256. -/
lemma sendHello_safe_when_232 (n : Nat) (h : n ≤ 232) :
    sendHelloWriteEnd n ≤ 256 := by
  unfold sendHelloWriteEnd
  omega

/-! ## MIDI stream serialization (midi_serialization.h, §4.1/§4.2 of the spec)

The implementation file `midi_serialization.cpp` (referenced by the
Makefile, declared in midi_serialization.h:33-57) is not among the sources
at hand, so `MidiToUsb::process` and `UsbToMidi::process` are modelled from
the specification's §3 "Decoder state", §4.1 "StreamDecoder" and §4.2
"PacketExpander". -/

/-- Modelled from the spec: the decoder state of `MidiToUsb`
(midi_serialization.h:43-50 lists the fields; §3 of the spec describes
them): the cable number, the current running status, the accumulated data
bytes (`m_data` with `m_counter` as its length — modelled as a list), and
the system-exclusive-in-progress flag. -/
structure MidiToUsb where
  m_cable : Nat
  m_status : Nat
  m_data : List Nat
  m_sysex : Bool
deriving DecidableEq

/-- Modelled from the spec: the `MidiToUsb(cable)` constructor state —
"initialized once at bridge startup" (§3): no running status, no
accumulated bytes, no sysex in progress.  `osc2midi.cpp:345` constructs
`MidiToUsb(0)`. -/
def MidiToUsb.init (cable : Nat) : MidiToUsb :=
  ⟨cable, 0, [], false⟩

/-- Modelled from the spec (§4.1 step 2): data bytes required by a
non-real-time status byte — channel voice `0x8n/0x9n/0xAn/0xBn` and `0xEn`
take 2, `0xCn/0xDn` take 1; system common `0xF1/0xF3` take 1, `0xF2` takes
2, `0xF6` (and the undefined `0xF4/0xF5`) take 0. -/
def midiDataCount (status : Nat) : Nat :=
  if status < 0xC0 then 2
  else if status < 0xE0 then 1
  else if status < 0xF0 then 2
  else if status = 0xF1 ∨ status = 0xF3 then 1
  else if status = 0xF2 then 2
  else 0

/-- Modelled from the spec (§4.2): the USB-MIDI code index (the tag's low
nibble) of a completed non-sysex message: channel voice messages use the
status high nibble, 2-byte system common messages use 2, 3-byte system
common use 3, single-byte system messages use 5. -/
def midiCin (status : Nat) : Nat :=
  if status < 0xF0 then status >>> 4
  else if status = 0xF1 ∨ status = 0xF3 then 2
  else if status = 0xF2 then 3
  else 5

/-- Modelled from the spec (§4.1): `MidiToUsb::process`
(midi_serialization.h:41) — one step of the stream decoder.  Takes the
current state and one raw byte; returns the new state and the emitted
packet if any (the C signature writes the packet through `out` and returns
`bool`).  Step 1: real-time bytes `0xF8..0xFF` emit immediately without
touching any state.  Step 2: a non-real-time status byte becomes the new
running status (sysex start/end handled per the 1-3-byte streaming rule).
Step 3: a data byte is buffered and a packet is emitted when the expected
count is reached.  Step 4: a data byte with no running status is
discarded. -/
def MidiToUsb.process (s : MidiToUsb) (byte : Nat) :
    MidiToUsb × Option midi_event_t :=
  if 0xF8 ≤ byte then
    (s, some ⟨(s.m_cable <<< 4) ||| 0xF, byte, 0, 0⟩)
  else if 0x80 ≤ byte then
    if byte = 0xF0 then
      ({ s with m_status := byte, m_data := [byte], m_sysex := true }, none)
    else if byte = 0xF7 then
      if s.m_sysex then
        ({ s with m_status := 0, m_data := [], m_sysex := false },
          some ⟨(s.m_cable <<< 4) ||| (4 + (s.m_data ++ [byte]).length),
            (s.m_data ++ [byte]).getD 0 0, (s.m_data ++ [byte]).getD 1 0,
            (s.m_data ++ [byte]).getD 2 0⟩)
      else ({ s with m_status := 0, m_data := [], m_sysex := false }, none)
    else if midiDataCount byte = 0 then
      ({ s with m_status := byte, m_data := [], m_sysex := false },
        some ⟨(s.m_cable <<< 4) ||| midiCin byte, byte, 0, 0⟩)
    else ({ s with m_status := byte, m_data := [], m_sysex := false }, none)
  else
    if s.m_sysex then
      if (s.m_data ++ [byte]).length = 3 then
        ({ s with m_data := [] },
          some ⟨(s.m_cable <<< 4) ||| 4, (s.m_data ++ [byte]).getD 0 0,
            (s.m_data ++ [byte]).getD 1 0, (s.m_data ++ [byte]).getD 2 0⟩)
      else ({ s with m_data := s.m_data ++ [byte] }, none)
    else if s.m_status < 0x80 then (s, none)
    else if (s.m_data ++ [byte]).length = midiDataCount s.m_status then
      ({ s with m_data := [] },
        some ⟨(s.m_cable <<< 4) ||| midiCin s.m_status, s.m_status,
          (s.m_data ++ [byte]).getD 0 0, (s.m_data ++ [byte]).getD 1 0⟩)
    else ({ s with m_data := s.m_data ++ [byte] }, none)

/-- Modelled from the spec (§4.2): `UsbToMidi::process`
(midi_serialization.h:56) — expands one packet into the raw stream bytes to
emit, selected by the tag's low nibble; the C function returns the byte
count and fills `out[3]`, modelled as the list of the emitted bytes
(reserved code indices 0 and 1 yield no bytes, i.e. "drop silently"). -/
def UsbToMidi.process : midi_event_t → List Nat
  | ⟨ev, b0, b1, b2⟩ =>
      if ev &&& 0xF = 0 ∨ ev &&& 0xF = 1 then []
      else if ev &&& 0xF = 5 ∨ ev &&& 0xF = 0xF then [b0]
      else if ev &&& 0xF = 2 ∨ ev &&& 0xF = 6 ∨ ev &&& 0xF = 0xC ∨
          ev &&& 0xF = 0xD then [b0, b1]
      else [b0, b1, b2]

/-- Feeding a byte list through the stream decoder one byte at a time,
collecting the emitted packets in order. -/
def MidiToUsb.processAll (s : MidiToUsb) :
    List Nat → MidiToUsb × List midi_event_t
  | [] => (s, [])
  | b :: rest =>
      match s.process b with
      | (s1, none) => s1.processAll rest
      | (s1, some p) => ((s1.processAll rest).1, p :: (s1.processAll rest).2)

example :
    ((MidiToUsb.init 0).processAll [145, 64, 48]).2 =
      [⟨9, 145, 64, 48⟩] := by decide
example : UsbToMidi.process ⟨9, 145, 64, 48⟩ = [145, 64, 48] := by decide
example :
    ((MidiToUsb.init 0).processAll [240, 1, 248, 2, 247]).2 =
      [⟨15, 248, 0, 0⟩, ⟨4, 240, 1, 2⟩, ⟨5, 247, 0, 0⟩] := by decide

/-! ### C8: real-time bytes leave the decoder state untouched -/

/-- **C8** (spec-modelled): for every decoder state and every real-time
status byte (`0xF8..0xFF`), `MidiToUsb::process` returns a packet for that
byte immediately, and the stored running status, the accumulated data bytes
(and hence their count), and the system-exclusive-in-progress flag are all
unchanged. -/
theorem realtime_preserves_state (s : MidiToUsb) (byte : Nat)
    (h : 0xF8 ≤ byte) (hb : byte ≤ 0xFF) :
    (s.process byte).2 = some ⟨(s.m_cable <<< 4) ||| 0xF, byte, 0, 0⟩ ∧
      (s.process byte).1.m_status = s.m_status ∧
      (s.process byte).1.m_data = s.m_data ∧
      (s.process byte).1.m_sysex = s.m_sysex := by
  unfold MidiToUsb.process
  rw [if_pos h]
  exact ⟨rfl, rfl, rfl, rfl⟩

/-- Witness for **C8**: a real-time Clock byte (0xF8) arriving while a
Note-On message is half-assembled (status 0x90, one data byte buffered). -/
theorem realtime_preserves_state_witness :
    ((MidiToUsb.mk 0 144 [64] false).process 248).2 = some ⟨15, 248, 0, 0⟩ ∧
      ((MidiToUsb.mk 0 144 [64] false).process 248).1.m_status = 144 ∧
      ((MidiToUsb.mk 0 144 [64] false).process 248).1.m_data = [64] ∧
      ((MidiToUsb.mk 0 144 [64] false).process 248).1.m_sysex = false := by
  have h := realtime_preserves_state (MidiToUsb.mk 0 144 [64] false) 248
    (by norm_num) (by norm_num)
  simpa using h

/-! ### C7: one-message round trip through the decoder and the expander -/

/-- A legal raw byte sequence forming one complete non-system-exclusive
MIDI message: a defined status byte (sysex markers `0xF0`/`0xF7` and the
undefined `0xF4`/`0xF5` excluded) followed by exactly the data bytes that
status requires, each with the top bit clear. -/
def midiLegalOneMsg (st : Nat) (ds : List Nat) : Prop :=
  0x80 ≤ st ∧ st ≤ 0xFF ∧ st ≠ 0xF0 ∧ st ≠ 0xF7 ∧ st ≠ 0xF4 ∧ st ≠ 0xF5 ∧
    ds.length = (if 0xF8 ≤ st then 0 else midiDataCount st) ∧
    ∀ d ∈ ds, d < 0x80

instance (st : Nat) (ds : List Nat) : Decidable (midiLegalOneMsg st ds) := by
  unfold midiLegalOneMsg
  infer_instance

/-- A non-real-time status byte stores itself as the running status and
clears the data buffer; nothing is emitted while data bytes are missing. -/
lemma process_status_store (s : MidiToUsb) (st : Nat) (h1 : 0x80 ≤ st)
    (h2 : st < 0xF8) (h3 : st ≠ 0xF0) (h4 : st ≠ 0xF7)
    (h5 : midiDataCount st ≠ 0) :
    s.process st =
      ({ s with m_status := st, m_data := [], m_sysex := false }, none) := by
  unfold MidiToUsb.process
  rw [if_neg (by omega), if_pos h1, if_neg h3, if_neg h4, if_neg h5]

/-- A status byte that needs no data bytes emits its packet immediately. -/
lemma process_status_emit (s : MidiToUsb) (st : Nat) (h1 : 0x80 ≤ st)
    (h2 : st < 0xF8) (h3 : st ≠ 0xF0) (h4 : st ≠ 0xF7)
    (h5 : midiDataCount st = 0) :
    s.process st =
      ({ s with m_status := st, m_data := [], m_sysex := false },
        some ⟨(s.m_cable <<< 4) ||| midiCin st, st, 0, 0⟩) := by
  unfold MidiToUsb.process
  rw [if_neg (by omega), if_pos h1, if_neg h3, if_neg h4, if_pos h5]

/-- A data byte short of the expected count is buffered, emitting nothing. -/
lemma process_data_buffer (s : MidiToUsb) (b : Nat) (hb : b < 0x80)
    (hsx : s.m_sysex = false) (hst : 0x80 ≤ s.m_status)
    (hlen : (s.m_data ++ [b]).length ≠ midiDataCount s.m_status) :
    s.process b = ({ s with m_data := s.m_data ++ [b] }, none) := by
  unfold MidiToUsb.process
  rw [if_neg (by omega), if_neg (by omega), if_neg (by simp [hsx]),
    if_neg (by omega), if_neg hlen]

/-- The data byte completing the expected count emits the message packet. -/
lemma process_data_emit (s : MidiToUsb) (b : Nat) (hb : b < 0x80)
    (hsx : s.m_sysex = false) (hst : 0x80 ≤ s.m_status)
    (hlen : (s.m_data ++ [b]).length = midiDataCount s.m_status) :
    s.process b =
      ({ s with m_data := [] },
        some ⟨(s.m_cable <<< 4) ||| midiCin s.m_status, s.m_status,
          (s.m_data ++ [b]).getD 0 0, (s.m_data ++ [b]).getD 1 0⟩) := by
  unfold MidiToUsb.process
  rw [if_neg (by omega), if_neg (by omega), if_neg (by simp [hsx]),
    if_neg (by omega), if_pos hlen]

lemma processAll_realtime (st : Nat) (hrt : 0xF8 ≤ st) :
    ((MidiToUsb.init 0).processAll [st]).2 = [⟨15, st, 0, 0⟩] := by
  simp [MidiToUsb.processAll, MidiToUsb.process, MidiToUsb.init, hrt]

lemma processAll_zero_data (st : Nat) (h1 : 0x80 ≤ st) (h2 : st < 0xF8)
    (hF0 : st ≠ 0xF0) (hF7 : st ≠ 0xF7) (hcount : midiDataCount st = 0) :
    ((MidiToUsb.init 0).processAll [st]).2 = [⟨midiCin st, st, 0, 0⟩] := by
  have hstep1 := process_status_emit (MidiToUsb.init 0) st h1 h2 hF0 hF7 hcount
  simp [MidiToUsb.processAll, MidiToUsb.init] at hstep1 ⊢
  simp [hstep1]

lemma processAll_one_data (st d1 : Nat) (h1 : 0x80 ≤ st) (h2 : st < 0xF8)
    (hF0 : st ≠ 0xF0) (hF7 : st ≠ 0xF7) (hcount : midiDataCount st = 1)
    (hd1 : d1 < 0x80) :
    ((MidiToUsb.init 0).processAll [st, d1]).2 = [⟨midiCin st, st, d1, 0⟩] := by
  have hstep1 := process_status_store (MidiToUsb.init 0) st h1 h2 hF0 hF7
    (by omega)
  have hstep2 := process_data_emit ⟨0, st, [], false⟩ d1 hd1 rfl h1
    (by simp [hcount])
  simp [MidiToUsb.processAll, MidiToUsb.init] at hstep1 hstep2 ⊢
  simp [hstep1, hstep2]

lemma processAll_two_data (st d1 d2 : Nat) (h1 : 0x80 ≤ st) (h2 : st < 0xF8)
    (hF0 : st ≠ 0xF0) (hF7 : st ≠ 0xF7) (hcount : midiDataCount st = 2)
    (hd1 : d1 < 0x80) (hd2 : d2 < 0x80) :
    ((MidiToUsb.init 0).processAll [st, d1, d2]).2 =
      [⟨midiCin st, st, d1, d2⟩] := by
  have hstep1 := process_status_store (MidiToUsb.init 0) st h1 h2 hF0 hF7
    (by omega)
  have hstep2 := process_data_buffer ⟨0, st, [], false⟩ d1 hd1 rfl h1
    (by simp [hcount])
  have hstep3 := process_data_emit ⟨0, st, [d1], false⟩ d2 hd2 rfl h1
    (by simp [hcount])
  simp [MidiToUsb.processAll, MidiToUsb.init] at hstep1 hstep2 hstep3 ⊢
  simp [hstep1, hstep2, hstep3]

lemma and_15_eq_mod (x : Nat) : x &&& 15 = x % 16 := by
  have h := Nat.and_pow_two_sub_one_eq_mod x 4
  norm_num at h
  exact h

lemma usb_one_byte (cin b0 b1 b2 : Nat) (hc : cin = 5 ∨ cin = 15) :
    UsbToMidi.process ⟨cin, b0, b1, b2⟩ = [b0] := by
  have hm : cin &&& 15 = cin := by rw [and_15_eq_mod]; omega
  unfold UsbToMidi.process
  dsimp only
  rw [hm, if_neg (by omega), if_pos hc]

lemma usb_two_bytes (cin b0 b1 b2 : Nat)
    (hc : cin = 2 ∨ cin = 6 ∨ cin = 12 ∨ cin = 13) :
    UsbToMidi.process ⟨cin, b0, b1, b2⟩ = [b0, b1] := by
  have hm : cin &&& 15 = cin := by rw [and_15_eq_mod]; omega
  unfold UsbToMidi.process
  dsimp only
  rw [hm, if_neg (by omega), if_neg (by omega), if_pos hc]

lemma usb_three_bytes (cin b0 b1 b2 : Nat) (h3 : 3 ≤ cin) (hlt : cin < 16)
    (h5 : cin ≠ 5) (h6 : cin ≠ 6) (h12 : cin ≠ 12) (h13 : cin ≠ 13)
    (h15 : cin ≠ 15) :
    UsbToMidi.process ⟨cin, b0, b1, b2⟩ = [b0, b1, b2] := by
  have hm : cin &&& 15 = cin := by rw [and_15_eq_mod]; omega
  unfold UsbToMidi.process
  dsimp only
  rw [hm, if_neg (by omega), if_neg (by omega), if_neg (by omega)]

/-- The data-byte count and code index of every defined non-real-time,
non-sysex status byte, by status class. -/
lemma midi_count_cin (st : Nat) (h1 : 0x80 ≤ st) (h8 : st < 0xF8)
    (hF0 : st ≠ 0xF0) (hF7 : st ≠ 0xF7) (hF4 : st ≠ 0xF4) (hF5 : st ≠ 0xF5) :
    (midiDataCount st = 2 ∧
        (8 ≤ midiCin st ∧ midiCin st ≤ 11 ∨ midiCin st = 14 ∨
          midiCin st = 3)) ∨
      (midiDataCount st = 1 ∧
        (midiCin st = 12 ∨ midiCin st = 13 ∨ midiCin st = 2)) ∨
      (midiDataCount st = 0 ∧ midiCin st = 5 ∧ st = 0xF6) := by
  have hsr : st >>> 4 = st / 16 := by simp [Nat.shiftRight_eq_div_pow]
  unfold midiDataCount midiCin
  split_ifs <;> (try rw [hsr]) <;> omega

/-- **C7** (spec-modelled): feeding one complete legal non-sysex MIDI
message byte-by-byte through the stream decoder from its initial state
yields exactly one packet, and expanding that packet reproduces exactly the
original bytes in order. -/
theorem midi_message_roundtrip (st : Nat) (ds : List Nat)
    (h : midiLegalOneMsg st ds) :
    ∃ p, ((MidiToUsb.init 0).processAll (st :: ds)).2 = [p] ∧
      UsbToMidi.process p = st :: ds := by
  obtain ⟨h1, h2, hF0, hF7, hF4, hF5, hlen, hdata⟩ := h
  by_cases hrt : 0xF8 ≤ st
  · rw [if_pos hrt] at hlen
    have hds : ds = [] := List.length_eq_zero.mp hlen
    subst hds
    exact ⟨⟨15, st, 0, 0⟩, processAll_realtime st hrt,
      usb_one_byte 15 st 0 0 (Or.inr rfl)⟩
  · rw [if_neg hrt] at hlen
    have hst8 : st < 0xF8 := by omega
    have hclass := midi_count_cin st h1 hst8 hF0 hF7 hF4 hF5
    rcases ds with _ | ⟨d1, ds1⟩
    · have hc0 : midiDataCount st = 0 := by simpa using hlen.symm
      rcases hclass with ⟨hc, _⟩ | ⟨hc, _⟩ | ⟨hc, hcin5, hst6⟩
      · omega
      · omega
      · exact ⟨⟨midiCin st, st, 0, 0⟩,
          processAll_zero_data st h1 hst8 hF0 hF7 hc,
          usb_one_byte (midiCin st) st 0 0 (Or.inl hcin5)⟩
    · rcases ds1 with _ | ⟨d2, ds2⟩
      · have hc1 : midiDataCount st = 1 := by simpa using hlen.symm
        rcases hclass with ⟨hc, _⟩ | ⟨hc, hcin⟩ | ⟨hc, _, _⟩
        · omega
        · refine ⟨⟨midiCin st, st, d1, 0⟩,
            processAll_one_data st d1 h1 hst8 hF0 hF7 hc1
              (hdata d1 (by simp)), ?_⟩
          apply usb_two_bytes
          tauto
        · omega
      · rcases ds2 with _ | ⟨d3, ds3⟩
        · have hc2 : midiDataCount st = 2 := by simpa using hlen.symm
          rcases hclass with ⟨hc, hcin⟩ | ⟨hc, _⟩ | ⟨hc, _, _⟩
          · refine ⟨⟨midiCin st, st, d1, d2⟩,
              processAll_two_data st d1 d2 h1 hst8 hF0 hF7 hc2
                (hdata d1 (by simp)) (hdata d2 (by simp)), ?_⟩
            apply usb_three_bytes <;> omega
          · omega
          · omega
        · exfalso
          rcases hclass with ⟨hc, _⟩ | ⟨hc, _⟩ | ⟨hc, _, _⟩ <;>
            (simp at hlen; omega)

/-- Witness for **C7**: the Note-On message `0x91 0x40 0x30`. -/
theorem midi_message_roundtrip_witness :
    ∃ p, ((MidiToUsb.init 0).processAll [145, 64, 48]).2 = [p] ∧
      UsbToMidi.process p = [145, 64, 48] :=
  midi_message_roundtrip 145 [64, 48] (by decide)
